import Mathlib

namespace Athena

/-!
Verification of the mesh / block-tree subsystem of the Athena mesh code
(src/src/mesh.cpp) against its natural-language specification.

Machine reals (`Real` in the C++ source, a floating-point type) are embedded
as rationals: every claim treated here is about the exact arithmetic
structure of the code (sums, minima, divisions, comparisons), not about
rounding.  Machine integers are embedded as `Nat`/`Int`; none of the modelled
quantities can go negative or overflow in the modelled regimes.
-/

/-- Logical location of a block in the tree: integer coordinates at a
refinement level (struct LogicalLocation; used throughout mesh.cpp). -/
structure LogicalLocation where
  lx1 : Nat
  lx2 : Nat
  lx3 : Nat
  level : Nat
deriving Repr, DecidableEq

instance : Inhabited LogicalLocation := ⟨⟨0, 0, 0, 0⟩⟩

/-! ## Load balancing (Mesh::LoadBalancing, mesh.cpp:1550-1599) -/

/-- The rank-assignment loop of Mesh::LoadBalancing (mesh.cpp:1560-1579),
processing the cost list from the high-gid end downward; the argument list is
the reversed cost list, and the returned rank list is likewise reversed.
State carried exactly as in the source: current rank j, remaining totalcost,
running mycost, current targetcost.  At the head of each iteration the source
raises the fatal "no MeshBlock" error when targetcost is zero. -/
def lbAssignRev : List ℚ → Nat → ℚ → ℚ → ℚ → Except String (List Nat)
  | [], _, _, _, _ => Except.ok []
  | c :: rest, j, totalcost, mycost, targetcost =>
    if targetcost = 0 then
      Except.error "There is at least one process which has no MeshBlock"
    else
      let mycost1 := mycost + c
      if targetcost ≤ mycost1 ∧ 0 < j then
        (lbAssignRev rest (j - 1) (totalcost - mycost1) 0
            ((totalcost - mycost1) / ((j : ℚ)))).map (fun l => j :: l)
      else
        (lbAssignRev rest j totalcost mycost1 targetcost).map (fun l => j :: l)

/-- Mesh::LoadBalancing rank assignment (mesh.cpp:1550-1579): ranks are
assigned from the last block downward starting at rank nranks-1, with
targetcost = totalcost/nranks; returns the rank list (index = gid), or the
fatal error raised inside the loop. -/
def loadBalancingRanks (nranks : Nat) (clist : List ℚ) : Except String (List Nat) :=
  let totalcost := clist.sum
  (lbAssignRev clist.reverse (nranks - 1) totalcost 0
      (totalcost / ((nranks : ℚ)))).map List.reverse

/-! ## Global timestep (Mesh::NewTimeStep, mesh.cpp:993-1010) -/

/-- Mesh::NewTimeStep (mesh.cpp:993-1010): min_dt starts from the first
block's new_block_dt and is folded with min over the remaining blocks (the
cross-rank MPI all-reduce performs the same min over the blocks of the other
ranks, so the list here stands for all blocks on all ranks); then
dt = min(min_dt*cfl_number, 2*dt), and dt is clamped to tlim-time when
time < tlim and tlim-time < dt.  dtOld is the dt member before the call. -/
def newTimeStep (cflNumber tlim time dtOld d0 : ℚ) (rest : List ℚ) : ℚ :=
  let minDt := rest.foldl min d0
  let dt1 := min (minDt * cflNumber) (2 * dtOld)
  if time < tlim ∧ tlim - time < dt1 then tlim - time else dt1

/-! ## MeshTest cost report (Mesh::MeshTest, mesh.cpp:689-770) -/

/-- The minimum, maximum and total block cost as computed by Mesh::MeshTest
(mesh.cpp:708-724).  The outer loop runs over refinement levels i
(root_level..max_level), the inner loop over the block list; for every block
whose level equals i the source accumulates costlist[i] — indexing the cost
list by the level i, not by the block index.  mincost starts from FLT_MAX
(passed here as fltMax), maxcost and totalcost from 0 (mesh.cpp:694). -/
def meshTestCosts (rootLevel maxLevel : Nat) (loclist : List LogicalLocation)
    (costlist : List ℚ) (fltMax : ℚ) : ℚ × ℚ × ℚ :=
  (List.range' rootLevel (maxLevel - rootLevel + 1)).foldl
    (fun acc i =>
      loclist.foldl
        (fun acc2 lj =>
          if lj.level = i then
            (min acc2.1 (costlist.getD i 0), max acc2.2.1 (costlist.getD i 0),
             acc2.2.2 + costlist.getD i 0)
          else acc2) acc)
    (fltMax, 0, 0)

/-! ## Derefinement-candidate sort (Mesh::AdaptiveMeshRefinement, mesh.cpp:1828-1830) -/

/-- Modelled from the spec: LogicalLocation::Greater (declared in mesh.hpp,
which is not part of src/) is the deepest-first comparison used for sorting
derefinement candidates — it orders primarily by level, deepest first.  The
spec's tie-break among equal levels (a Morton-style interleave) is not
modelled: no theorem below depends on the relative order of equal-level
entries. -/
def llGreater (a b : LogicalLocation) : Bool := decide (b.level < a.level)

def insertGreater (x : LogicalLocation) : List LogicalLocation → List LogicalLocation
  | [] => [x]
  | y :: ys => if llGreater y x then y :: insertGreater x ys else x :: y :: ys

/-- Insertion sort with the Greater comparator: a model of what std::sort
produces on the range it is handed (a permutation sorted by Greater). -/
def sortGreater (l : List LogicalLocation) : List LogicalLocation :=
  l.foldr insertGreater []

/-- The derefinement-candidate sort of Mesh::AdaptiveMeshRefinement
(mesh.cpp:1828-1830): std::sort(clderef, &(clderef[ctnd-1]), Greater) sorts
the half-open iterator range [clderef, clderef+ctnd-1) — the first ctnd-1
entries — and leaves the final entry where it was.  Among equal levels
std::sort's order is unspecified; the theorem below only involves a
one-element sorted range, on which every sorting algorithm is the identity. -/
def sortDerefCandidates (l : List LogicalLocation) : List LogicalLocation :=
  if 1 < l.length then
    sortGreater (l.take (l.length - 1)) ++ l.drop (l.length - 1)
  else l

/-! ## Derefinement-candidate selection (Mesh::AdaptiveMeshRefinement, mesh.cpp:1754-1827) -/

/-- nlbl, the number of blocks in one sibling family: 2 in 1-D, 4 in 2-D,
8 in 3-D (mesh.cpp:1754-1756). -/
def nlblOf (nx2 nx3 : Nat) : Nat := if 1 < nx3 then 8 else if 1 < nx2 then 4 else 2

/-- lj = 1 iff the mesh extends in x2 (mesh.cpp:1799-1800). -/
def ljOf (nx2 : Nat) : Nat := if 1 < nx2 then 1 else 0

/-- lk = 1 iff the mesh extends in x3 (mesh.cpp:1799-1801). -/
def lkOf (nx3 : Nat) : Nat := if 1 < nx3 then 1 else 0

/-- The (k, j, i) offset triples visited by the sibling-family loop
(mesh.cpp:1806-1817), in source order (k outer, j middle, i inner); the read
cursor r starts at the candidate position and advances by one per triple,
matched or not. -/
def familyOffsets (lk lj : Nat) : List (Nat × Nat × Nat) :=
  (List.range (lk + 1)).flatMap (fun k =>
    (List.range (lj + 1)).flatMap (fun j =>
      (List.range 2).map (fun i => (k, j, i))))

/-- rr, the number of matched siblings for the candidate at position n: the
t-th visited triple (k, j, i) compares lderef[n+t] against
(lderef[n].lx1+i, lderef[n].lx2+j, lderef[n].lx3+k) at equal level
(mesh.cpp:1805-1817); out-of-range reads are modelled by getD's default. -/
def siblingMatchCount (lderef : List LogicalLocation) (n lk lj : Nat) : Nat :=
  ((familyOffsets lk lj).enum.countP (fun p =>
    let ln := lderef.getD n default
    let lr := lderef.getD (n + p.1) default
    decide (ln.lx1 + p.2.2.2 = lr.lx1 ∧ ln.lx2 + p.2.2.1 = lr.lx2 ∧
            ln.lx3 + p.2.1 = lr.lx3 ∧ ln.level = lr.level)))

/-- The list clderef of newly derefined parent locations built by
Mesh::AdaptiveMeshRefinement from the gathered list lderef of the locations
of all blocks flagged -1 (mesh.cpp:1758-1827).  The entire computation is
guarded by tnderef > nlbl (mesh.cpp:1760, 1771, 1802): with
tnderef ≤ nlbl no candidate is produced at all.  A position with all-even
coordinates whose full family matches (rr == nlbl) contributes the parent
location (coordinates halved, level decremented). -/
def derefinementCandidates (nx2 nx3 : Nat) (lderef : List LogicalLocation) :
    List LogicalLocation :=
  let nlbl := nlblOf nx2 nx3
  if nlbl < lderef.length then
    (List.range lderef.length).filterMap (fun n =>
      let ln := lderef.getD n default
      if ln.lx1 % 2 = 0 ∧ ln.lx2 % 2 = 0 ∧ ln.lx3 % 2 = 0 then
        if siblingMatchCount lderef n (lkOf nx3) (ljOf nx2) = nlbl then
          some ⟨ln.lx1 / 2, ln.lx2 / 2, ln.lx3 / 2, ln.level - 1⟩
        else none
      else none)
  else []

/-- The positions r at which the sibling scan triggered at candidate
position n reads lderef: r starts at n and is incremented once per visited
triple (mesh.cpp:1805-1817). -/
def familyScanReadIndices (lk lj n : Nat) : List Nat :=
  (List.range (familyOffsets lk lj).length).map (fun t => n + t)

/-- Every position at which the gathered list lderef is indexed by the
derefinement scan (mesh.cpp:1802-1827): each position n is read by the
evenness test, and a position with all-even coordinates additionally incurs
the full sibling read sequence r = n .. n + nlbl - 1. -/
def derefScanReadIndices (nx2 nx3 : Nat) (lderef : List LogicalLocation) : List Nat :=
  if nlblOf nx2 nx3 < lderef.length then
    (List.range lderef.length).flatMap (fun n =>
      let ln := lderef.getD n default
      if ln.lx1 % 2 = 0 ∧ ln.lx2 % 2 = 0 ∧ ln.lx3 % 2 = 0 then
        familyScanReadIndices (lkOf nx3) (ljOf nx2) n
      else [n])
  else []

/-! ## Same-level AMR migration message (Mesh::AdaptiveMeshRefinement,
mesh.cpp:1944-1957, 2004-2023, 2270-2297) -/

/-- bssame, the byte budget (in reals) of a same-level AMR migration message
with magnetic fields enabled (mesh.cpp:1946, 1950): the cell-centered
interior for nh variables plus the three face fields over their proper face
extents (x1f has nx1+1 faces, x2f nx2+f2, x3f nx3+f3). -/
def bssame (nh bnx1 bnx2 bnx3 f2 f3 : Nat) : Nat :=
  bnx1 * bnx2 * bnx3 * nh +
    ((bnx1 + 1) * bnx2 * bnx3 + bnx1 * (bnx2 + f2) * bnx3 + bnx1 * bnx2 * (bnx3 + f3))

/-- Number of reals written by one inclusive-range 3-D pack
(BufferUtility::Pack3DData over i ∈ [si, ei], j ∈ [sj, ej], k ∈ [sk, ek]). -/
def packCount3D (si ei sj ej sk ek : Nat) : Nat :=
  (ei + 1 - si) * (ej + 1 - sj) * (ek + 1 - sk)

/-- The number of reals the same-level sender actually packs
(mesh.cpp:2009-2017): u over [is,ie]×[js,je]×[ks,ke] for nh variables, then
each of x1f, x2f AND x3f over i ∈ [is, ie+1], j ∈ [js, je], k ∈ [ks, ke] —
all three face fields use the x1f ranges.  The same-level receiver unpacks
with the same three ranges (mesh.cpp:2275-2284).  g is NGHOST; is = g,
ie = g + nx1 - 1, and likewise for j and k (mesh.cpp:813-828). -/
def packSameCount (nh g bnx1 bnx2 bnx3 : Nat) : Nat :=
  let is := g
  let ie := g + bnx1 - 1
  let js := g
  let je := g + bnx2 - 1
  let ks := g
  let ke := g + bnx3 - 1
  nh * packCount3D is ie js je ks ke +
    (packCount3D is (ie + 1) js je ks ke +
     packCount3D is (ie + 1) js je ks ke +
     packCount3D is (ie + 1) js je ks ke)

/-! ## Cost propagation (Mesh::AdaptiveMeshRefinement, mesh.cpp:1883-1893) -/

/-- The new cost list built after tree manipulation (mesh.cpp:1883-1893):
for each new gid n with old gid pg = newtoold[n], the cost is inherited when
the new level is the same or finer (newloc[n].level >= loclist[pg].level);
otherwise acost accumulates costlist[pg+l] for l < nlbl and the cost is
acost/nlbl. -/
def newCostList (nlbl : Nat) (loclist newloc : List LogicalLocation)
    (costlist : List ℚ) (newtoold : List Nat) (ntot : Nat) : List ℚ :=
  (List.range ntot).map (fun n =>
    let pg := newtoold.getD n 0
    if (loclist.getD pg default).level ≤ (newloc.getD n default).level then
      costlist.getD pg 0
    else
      ((List.range nlbl).foldl (fun a l => a + costlist.getD (pg + l) 0) 0) / (nlbl : ℚ))

/-! ## Neighbor search (MeshBlock::SearchAndSetNeighbors, mesh.cpp:1242-1499,
and NeighborBlock::SetNeighbor, mesh.cpp:1216-1236)

The scan is embedded over an abstract tree oracle: for every scanned
direction the oracle reports what tree.FindNeighbor returned — nothing
(NULL), an internal node whose abutting child leaves GetLeaf delivers
(flag == false, "finer"), or a leaf at the searched or a coarser level.
Everything else — the direction schedule, the bufid counter, the per-branch
emission, SetNeighbor's field assignments, the FindBufferID calls and the
edge/corner deduplication conditions — is translated from the source. -/

/-- The block-size and mesh flags that shape the scan: whether the block
extends in x2 and x3, and the mesh's multilevel and face_only flags. -/
structure ScanCfg where
  nx2gt1 : Bool
  nx3gt1 : Bool
  multilevel : Bool
  faceOnly : Bool
deriving Repr, DecidableEq

/-- nf1 (mesh.cpp:1254-1257): 2 when the mesh is multilevel and the block
extends in x2, else 1. -/
def nf1 (c : ScanCfg) : Nat := if c.multilevel && c.nx2gt1 then 2 else 1

/-- nf2 (mesh.cpp:1254-1258): 2 when the mesh is multilevel and the block
extends in x3, else 1. -/
def nf2 (c : ScanCfg) : Nat := if c.multilevel && c.nx3gt1 then 2 else 1

inductive DirKind
  | faceX1 | faceX2 | faceX3 | edgeX1X2 | edgeX1X3 | edgeX2X3 | corner
deriving Repr, DecidableEq

/-- One scanned direction: its pass and its offsets (ox1, ox2, ox3). -/
structure ScanDir where
  kind : DirKind
  ox1 : Int
  ox2 : Int
  ox3 : Int
deriving Repr, DecidableEq

/-- The complete direction schedule of SearchAndSetNeighbors in source
order: x1 faces (mesh.cpp:1270); early return when nx2 == 1
(mesh.cpp:1300); x2 faces (1302); x3 faces when nx3 > 1 (1332-1334); early
return when face_only (1365); x1x2 edges (1368-1369, m outer, n inner);
early return when nx3 == 1 (1402); x1x3 edges (1404), x2x3 edges (1439),
corners (1474-1476, l outer, m middle, n inner). -/
def scanDirs (c : ScanCfg) : List ScanDir :=
  [⟨DirKind.faceX1, -1, 0, 0⟩, ⟨DirKind.faceX1, 1, 0, 0⟩] ++
  (if c.nx2gt1 then
    [⟨DirKind.faceX2, 0, -1, 0⟩, ⟨DirKind.faceX2, 0, 1, 0⟩] ++
    (if c.nx3gt1 then [⟨DirKind.faceX3, 0, 0, -1⟩, ⟨DirKind.faceX3, 0, 0, 1⟩] else []) ++
    (if c.faceOnly then [] else
      [⟨DirKind.edgeX1X2, -1, -1, 0⟩, ⟨DirKind.edgeX1X2, 1, -1, 0⟩,
       ⟨DirKind.edgeX1X2, -1, 1, 0⟩, ⟨DirKind.edgeX1X2, 1, 1, 0⟩] ++
      (if c.nx3gt1 then
        [⟨DirKind.edgeX1X3, -1, 0, -1⟩, ⟨DirKind.edgeX1X3, 1, 0, -1⟩,
         ⟨DirKind.edgeX1X3, -1, 0, 1⟩, ⟨DirKind.edgeX1X3, 1, 0, 1⟩,
         ⟨DirKind.edgeX2X3, 0, -1, -1⟩, ⟨DirKind.edgeX2X3, 0, 1, -1⟩,
         ⟨DirKind.edgeX2X3, 0, -1, 1⟩, ⟨DirKind.edgeX2X3, 0, 1, 1⟩,
         ⟨DirKind.corner, -1, -1, -1⟩, ⟨DirKind.corner, 1, -1, -1⟩,
         ⟨DirKind.corner, -1, 1, -1⟩, ⟨DirKind.corner, 1, 1, -1⟩,
         ⟨DirKind.corner, -1, -1, 1⟩, ⟨DirKind.corner, 1, -1, 1⟩,
         ⟨DirKind.corner, -1, 1, 1⟩, ⟨DirKind.corner, 1, 1, 1⟩]
       else []))
  else [])

/-- The number of bufid slots one direction occupies, whether or not a leaf
is found there: nf1*nf2 per face (mesh.cpp:1272,1284,1297), nf2 per x1x2
edge (1371,1383,1398), nf1 per x1x3 and x2x3 edge (1407,1419,1434,
1442,1454,1469), 1 per corner (1478,1494). -/
def dirSlots (c : ScanCfg) (d : ScanDir) : Nat :=
  match d.kind with
  | DirKind.faceX1 => nf1 c * nf2 c
  | DirKind.faceX2 => nf1 c * nf2 c
  | DirKind.faceX3 => nf1 c * nf2 c
  | DirKind.edgeX1X2 => nf2 c
  | DirKind.edgeX1X3 => nf1 c
  | DirKind.edgeX2X3 => nf1 c
  | DirKind.corner => 1

/-- A found tree leaf: its gid and its level. -/
structure LeafInfo where
  gid : Nat
  level : Nat
deriving Repr, DecidableEq

/-- What tree.FindNeighbor reported for one direction: NULL; an internal
node (flag == false) whose abutting child leaves are delivered by GetLeaf —
for faces the function is applied to the two free fine indices (f1, f2), for
edges to the single free fine index (f1, 0), for corners to (0, 0), the
GetLeaf-resolved child; or a leaf at the searched or a coarser level. -/
inductive FindResult
  | null
  | finer (leaf : Nat → Nat → LeafInfo)
  | leaf (lf : LeafInfo)

/-- The searching block as the scan sees it: its level and the parities
myfx1/myfx2/myfx3 of its logical coordinates (mesh.cpp:1245-1248). -/
structure BlockCtx where
  level : Nat
  fx1 : Nat
  fx2 : Nat
  fx3 : Nat
deriving Repr, DecidableEq

/-- myox1 = (lx1 & 1)*2 - 1 (mesh.cpp:1249). -/
def myox1 (b : BlockCtx) : Int := 2 * (b.fx1 : Int) - 1

/-- myox2: 0 unless the block extends in x2, else (lx2 & 1)*2 - 1
(mesh.cpp:1245,1250). -/
def myox2 (c : ScanCfg) (b : BlockCtx) : Int :=
  if c.nx2gt1 then 2 * (b.fx2 : Int) - 1 else 0

/-- myox3: 0 unless the block extends in x3, else (lx3 & 1)*2 - 1
(mesh.cpp:1245,1251). -/
def myox3 (c : ScanCfg) (b : BlockCtx) : Int :=
  if c.nx3gt1 then 2 * (b.fx3 : Int) - 1 else 0

/-- The fine-index offset a record's (fi1, fi2) contributes to its buffer id
within its direction's slot range: f2*nf1 + f1 for faces (the f2-outer,
f1-inner loop of mesh.cpp:1276-1286), f1 for edges, 0 for corners. -/
def dirFineOffset (c : ScanCfg) (d : ScanDir) (fi1 fi2 : Nat) : Nat :=
  match d.kind with
  | DirKind.faceX1 => fi2 * nf1 c + fi1
  | DirKind.faceX2 => fi2 * nf1 c + fi1
  | DirKind.faceX3 => fi2 * nf1 c + fi1
  | DirKind.edgeX1X2 => fi1
  | DirKind.edgeX1X3 => fi1
  | DirKind.edgeX2X3 => fi1
  | DirKind.corner => 0

/-- Modelled from the spec: FindBufferID (declared in the boundary-values
code, which is not part of src/) is the BufferIdCatalog — a stable bijection
from (direction, fine indices) to canonical buffer ids, identical on every
rank, whose ids are position-determined: the id of a slot is the value the
scan's bufid counter has when it reaches that slot.  It is computed here by
walking the canonical direction schedule and summing slot counts. -/
def findBufferIDAux (c : ScanCfg) (ox1 ox2 ox3 : Int) (fi1 fi2 : Nat) :
    List ScanDir → Nat → Nat
  | [], acc => acc
  | d :: ds, acc =>
    if d.ox1 = ox1 ∧ d.ox2 = ox2 ∧ d.ox3 = ox3 then acc + dirFineOffset c d fi1 fi2
    else findBufferIDAux c ox1 ox2 ox3 fi1 fi2 ds (acc + dirSlots c d)

/-- Modelled from the spec: see findBufferIDAux. -/
def findBufferID (c : ScanCfg) (ox1 ox2 ox3 : Int) (fi1 fi2 : Nat) : Nat :=
  findBufferIDAux c ox1 ox2 ox3 fi1 fi2 (scanDirs c) 0

inductive NeighborConn
  | face | edge | corner
deriving Repr, DecidableEq

/-- One neighbor record, with the fields NeighborBlock::SetNeighbor assigns
(mesh.cpp:1216-1221); the derived fid/eid face and edge ids are not modelled
(no claim mentions them). -/
structure NeighborBlock where
  rank : Nat
  level : Nat
  gid : Nat
  lid : Int
  ox1 : Int
  ox2 : Int
  ox3 : Int
  conn : NeighborConn
  bufid : Nat
  targetid : Nat
  fi1 : Nat
  fi2 : Nat
deriving Repr, DecidableEq

/-- SetNeighbor's field assignment for a found leaf: rank = ranklist[gid],
lid = gid - nslist[rank] (as at every call site, e.g. mesh.cpp:1282-1283). -/
def mkRecord (ranklist nslist : List Nat) (lf : LeafInfo) (ox1 ox2 ox3 : Int)
    (conn : NeighborConn) (bufid targetid fi1 fi2 : Nat) : NeighborBlock :=
  let rank := ranklist.getD lf.gid 0
  { rank := rank, level := lf.level, gid := lf.gid,
    lid := (lf.gid : Int) - (nslist.getD rank 0 : Int),
    ox1 := ox1, ox2 := ox2, ox3 := ox3, conn := conn,
    bufid := bufid, targetid := targetid, fi1 := fi1, fi2 := fi2 }

/-- The (f1, f2) pairs of the finer-face double loop, f2 outer and f1 inner
(mesh.cpp:1276-1277). -/
def facePairs (c : ScanCfg) : List (Nat × Nat) :=
  (List.range (nf2 c)).flatMap (fun f2 =>
    (List.range (nf1 c)).map (fun f1 => (f1, f2)))

/-- A loop that emits one record per element, incrementing the bufid counter
after each emission (the bufid++ of e.g. mesh.cpp:1284). -/
def emitLoop {α : Type} (recFn : Nat → α → NeighborBlock) (l : List α)
    (st : List NeighborBlock × Nat) : List NeighborBlock × Nat :=
  l.foldl (fun st x => (st.1 ++ [recFn st.2 x], st.2 + 1)) st

/-- The record the finer-face loop emits at fine position p = (f1, f2): the
abutting child GetLeaf delivers, offsets of the direction, face type, the
running bufid, targetid FindBufferID(-ox, 0, 0), fine indices (f1, f2)
(mesh.cpp:1278-1283 and the analogous x2/x3 blocks). -/
def faceFinerRec (c : ScanCfg) (rl nsl : List Nat) (d : ScanDir)
    (leaf : Nat → Nat → LeafInfo) (bufid : Nat) (p : Nat × Nat) : NeighborBlock :=
  mkRecord rl nsl (leaf p.1 p.2) d.ox1 d.ox2 d.ox3 NeighborConn.face bufid
    (findBufferID c (-d.ox1) (-d.ox2) (-d.ox3) 0 0) p.1 p.2

/-- The record the finer-edge loop emits at fine position f1
(mesh.cpp:1376-1383 and the analogous x1x3/x2x3 blocks). -/
def edgeFinerRec (c : ScanCfg) (rl nsl : List Nat) (d : ScanDir)
    (leaf : Nat → Nat → LeafInfo) (bufid : Nat) (f1 : Nat) : NeighborBlock :=
  mkRecord rl nsl (leaf f1 0) d.ox1 d.ox2 d.ox3 NeighborConn.edge bufid
    (findBufferID c (-d.ox1) (-d.ox2) (-d.ox3) 0 0) f1 0

/-- The connection type each pass assigns. -/
def connOf : DirKind → NeighborConn
  | DirKind.faceX1 => NeighborConn.face
  | DirKind.faceX2 => NeighborConn.face
  | DirKind.faceX3 => NeighborConn.face
  | DirKind.edgeX1X2 => NeighborConn.edge
  | DirKind.edgeX1X3 => NeighborConn.edge
  | DirKind.edgeX2X3 => NeighborConn.edge
  | DirKind.corner => NeighborConn.corner

/-- Whether a same-or-coarser leaf is recorded: faces always; edges and
corners only when nlevel >= loc.level or the block's own fine position
coincides with the direction (the deduplication conditions of
mesh.cpp:1393, 1429, 1464, 1487). -/
def dedupKeep (c : ScanCfg) (b : BlockCtx) (d : ScanDir) (nlevel : Nat) : Bool :=
  match d.kind with
  | DirKind.faceX1 => true
  | DirKind.faceX2 => true
  | DirKind.faceX3 => true
  | DirKind.edgeX1X2 =>
    decide (b.level ≤ nlevel ∨ (myox1 b = d.ox1 ∧ myox2 c b = d.ox2))
  | DirKind.edgeX1X3 =>
    decide (b.level ≤ nlevel ∨ (myox1 b = d.ox1 ∧ myox3 c b = d.ox3))
  | DirKind.edgeX2X3 =>
    decide (b.level ≤ nlevel ∨ (myox2 c b = d.ox2 ∧ myox3 c b = d.ox3))
  | DirKind.corner =>
    decide (b.level ≤ nlevel ∨
      (myox1 b = d.ox1 ∧ myox2 c b = d.ox2 ∧ myox3 c b = d.ox3))

/-- The fine indices used for the targetid of a coarser neighbor: the
block's own parities on the free axes of the direction (mesh.cpp:1294, 1326,
1358, 1392, 1428, 1463); corners pass (0,0) (mesh.cpp:1489). -/
def coarseFi (b : BlockCtx) : DirKind → Nat × Nat
  | DirKind.faceX1 => (b.fx2, b.fx3)
  | DirKind.faceX2 => (b.fx1, b.fx3)
  | DirKind.faceX3 => (b.fx1, b.fx2)
  | DirKind.edgeX1X2 => (b.fx3, 0)
  | DirKind.edgeX1X3 => (b.fx2, 0)
  | DirKind.edgeX2X3 => (b.fx1, 0)
  | DirKind.corner => (0, 0)

/-- The records (zero or one) emitted for a same-or-coarser leaf: kept or
dropped by the deduplication condition, with the direction's base bufid and
a targetid that uses the block's own fine indices when the leaf is coarser
(e.g. mesh.cpp:1288-1297 for faces, 1386-1397 for edges, 1485-1493 for
corners). -/
def leafRecords (c : ScanCfg) (b : BlockCtx) (rl nsl : List Nat) (d : ScanDir)
    (lf : LeafInfo) (bufid0 : Nat) : List NeighborBlock :=
  if dedupKeep c b d lf.level then
    [mkRecord rl nsl lf d.ox1 d.ox2 d.ox3 (connOf d.kind) bufid0
      (if lf.level = b.level then findBufferID c (-d.ox1) (-d.ox2) (-d.ox3) 0 0
       else
         findBufferID c (-d.ox1) (-d.ox2) (-d.ox3) (coarseFi b d.kind).1
           (coarseFi b d.kind).2) 0 0]
  else []

/-- Processing of one scanned direction, threading the record list and the
bufid counter: NULL skips but advances the counter by the direction's slot
count; a finer neighbor emits one record per abutting child with bufid++
after each; a leaf goes through the deduplicated single-record emission and
the counter advances by the slot count; a finer corner is first resolved by
GetLeaf (mesh.cpp:1479-1484) and then handled like a leaf. -/
def dirStep (c : ScanCfg) (b : BlockCtx) (rl nsl : List Nat) (d : ScanDir)
    (res : FindResult) (st : List NeighborBlock × Nat) :
    List NeighborBlock × Nat :=
  match res with
  | FindResult.null => (st.1, st.2 + dirSlots c d)
  | FindResult.finer leaf =>
    match d.kind with
    | DirKind.faceX1 => emitLoop (faceFinerRec c rl nsl d leaf) (facePairs c) st
    | DirKind.faceX2 => emitLoop (faceFinerRec c rl nsl d leaf) (facePairs c) st
    | DirKind.faceX3 => emitLoop (faceFinerRec c rl nsl d leaf) (facePairs c) st
    | DirKind.edgeX1X2 =>
      emitLoop (edgeFinerRec c rl nsl d leaf) (List.range (dirSlots c d)) st
    | DirKind.edgeX1X3 =>
      emitLoop (edgeFinerRec c rl nsl d leaf) (List.range (dirSlots c d)) st
    | DirKind.edgeX2X3 =>
      emitLoop (edgeFinerRec c rl nsl d leaf) (List.range (dirSlots c d)) st
    | DirKind.corner =>
      (st.1 ++ leafRecords c b rl nsl d (leaf 0 0) st.2, st.2 + dirSlots c d)
  | FindResult.leaf lf =>
    (st.1 ++ leafRecords c b rl nsl d lf st.2, st.2 + dirSlots c d)

/-- The full scan: fold the direction schedule over (records, bufid),
starting from the empty record list and bufid = 0 (mesh.cpp:1259-1260). -/
def neighborScan (c : ScanCfg) (b : BlockCtx) (rl nsl : List Nat)
    (find : ScanDir → FindResult) : List NeighborBlock × Nat :=
  (scanDirs c).foldl (fun st d => dirStep c b rl nsl d (find d) st) ([], 0)

/-- The neighbor list SearchAndSetNeighbors leaves in the block. -/
def searchAndSetNeighbors (c : ScanCfg) (b : BlockCtx) (rl nsl : List Nat)
    (find : ScanDir → FindResult) : List NeighborBlock :=
  (neighborScan c b rl nsl find).1

/-- The bufid counter after the first k scanned directions. -/
def scanCounterAfter (c : ScanCfg) (b : BlockCtx) (rl nsl : List Nat)
    (find : ScanDir → FindResult) (k : Nat) : Nat :=
  (((scanDirs c).take k).foldl (fun st d => dirStep c b rl nsl d (find d) st)
    ([], 0)).2

/-- The records the scan emits at directions k, k+1, ...: the suffix fold
started from the counter the prefix left behind. -/
def scanRecordsFrom (c : ScanCfg) (b : BlockCtx) (rl nsl : List Nat)
    (find : ScanDir → FindResult) (k : Nat) : List NeighborBlock :=
  (((scanDirs c).drop k).foldl (fun st d => dirStep c b rl nsl d (find d) st)
    ([], scanCounterAfter c b rl nsl find k)).1

/-- A concrete 3-D multilevel configuration used to witness the scan
theorems. -/
def cfgW : ScanCfg := ⟨true, true, true, false⟩

/-- A concrete block context (level 3, fine position (1, 0, 1)). -/
def ctxW : BlockCtx := ⟨3, 1, 0, 1⟩

/-- A concrete tree oracle with no leaf on any +x1 direction. -/
def findW : ScanDir → FindResult :=
  fun d => if d.ox1 = 1 then FindResult.null else FindResult.leaf ⟨0, 3⟩

/-! ## Neighbor symmetry on 1-D meshes (MeshBlock::SearchAndSetNeighbors,
mesh.cpp:1242-1300)

On a 1-D block (block_size.nx2 == 1) SearchAndSetNeighbors executes exactly
the x1-face pass and returns (mesh.cpp:1300), with nf1 = nf2 = 1
(mesh.cpp:1254-1257).  The scan is instantiated at that configuration over a
whole mesh: the tree's leaves in enumeration order (which fixes gid), with
the oracle derived from leaf adjacency. -/

/-- A 1-D mesh: the leaves of the tree in enumeration (left-to-right)
order — leaf i has gid i — together with the boundary mode, the mesh flags,
and the replicated rank tables. -/
structure Mesh1D where
  leaves : List LogicalLocation
  periodic : Bool
  multilevel : Bool
  faceOnly : Bool
  ranklist : List Nat
  nslist : List Nat

/-- Modelled from the spec: MeshBlockTree::FindNeighbor restricted to 1-D
(the tree code is not part of src/): locate the leaf adjacent to leaf a in
direction n ∈ {-1, +1}; periodic boundaries wrap, other boundary codes give
NULL.  In one dimension the leaves tile the domain in enumeration order, so
the adjacent leaf is the predecessor or successor in that order. -/
def findNeighbor1D (M : Mesh1D) (a : Nat) (n : Int) : Option Nat :=
  if n < 0 then
    if a = 0 then (if M.periodic then some (M.leaves.length - 1) else none)
    else some (a - 1)
  else
    if a = M.leaves.length - 1 then (if M.periodic then some 0 else none)
    else some (a + 1)

/-- What the x1-face pass sees on a 1-D mesh (mesh.cpp:1270-1299): NULL when
there is no neighbor; when the adjacent leaf is deeper than the searching
block, FindNeighbor returns the internal node covering it (flag == false)
and GetLeaf(fface, f1, f2) resolves — under the 2:1 constraint — to that
adjacent leaf; otherwise the adjacent leaf itself (same level or coarser). -/
def oracle1D (M : Mesh1D) (a : Nat) (d : ScanDir) : FindResult :=
  match findNeighbor1D M a d.ox1 with
  | none => FindResult.null
  | some bidx =>
    if (M.leaves.getD a default).level < (M.leaves.getD bidx default).level then
      FindResult.finer (fun _ _ => ⟨bidx, (M.leaves.getD bidx default).level⟩)
    else FindResult.leaf ⟨bidx, (M.leaves.getD bidx default).level⟩

/-- The scan configuration of a 1-D block: nx2 == 1 and nx3 == 1. -/
def cfg1D (M : Mesh1D) : ScanCfg :=
  ⟨false, false, M.multilevel, M.faceOnly⟩

/-- The searching block's level and coordinate parities (mesh.cpp:1245-1248). -/
def ctx1D (M : Mesh1D) (a : Nat) : BlockCtx :=
  ⟨(M.leaves.getD a default).level, (M.leaves.getD a default).lx1 % 2,
   (M.leaves.getD a default).lx2 % 2, (M.leaves.getD a default).lx3 % 2⟩

/-- The neighbor list of block a on a 1-D mesh. -/
def neighbors1D (M : Mesh1D) (a : Nat) : List NeighborBlock :=
  searchAndSetNeighbors (cfg1D M) (ctx1D M a) M.ranklist M.nslist (oracle1D M a)

/-- The single face record emitted toward leaf bidx in direction n on a 1-D
mesh when the bufid counter stands at bufid (every non-NULL x1-face branch
emits exactly one record, with nf1 = nf2 = 1): targetid is
FindBufferID(-n, 0, 0, 0, 0), which is 1 for -n = +1 and 0 for -n = -1. -/
def rec1DAt (M : Mesh1D) (bidx : Nat) (n : Int) (bufid : Nat) : NeighborBlock :=
  mkRecord M.ranklist M.nslist ⟨bidx, (M.leaves.getD bidx default).level⟩ n 0 0
    NeighborConn.face bufid (if n = -1 then 1 else 0) 0 0

/-- Well-formedness of a 1-D mesh: at least one leaf; genuinely 1-D (all
lx2 = lx3 = 0); the 2:1 constraint between consecutive leaves and across
the periodic seam. -/
def Mesh1D.WF (M : Mesh1D) : Prop :=
  M.leaves ≠ [] ∧
  (∀ lf ∈ M.leaves, lf.lx2 = 0 ∧ lf.lx3 = 0) ∧
  (∀ i < M.leaves.length - 1,
    (M.leaves.getD i default).level ≤ (M.leaves.getD (i + 1) default).level + 1 ∧
    (M.leaves.getD (i + 1) default).level ≤ (M.leaves.getD i default).level + 1) ∧
  (M.periodic = true → 1 < M.leaves.length →
    (M.leaves.getD 0 default).level ≤
      (M.leaves.getD (M.leaves.length - 1) default).level + 1 ∧
    (M.leaves.getD (M.leaves.length - 1) default).level ≤
      (M.leaves.getD 0 default).level + 1)

/-- A concrete well-formed 1-D multilevel mesh: two level-2 leaves followed
by one level-1 leaf, distributed over two ranks. -/
def meshW : Mesh1D :=
  ⟨[⟨0, 0, 0, 2⟩, ⟨1, 0, 0, 2⟩, ⟨1, 0, 0, 1⟩], false, true, false, [0, 0, 1], [0, 2]⟩


/-! ## Neighbor symmetry on uniform periodic 3-D grids

The second instantiation of the scan covers all 26 directions — faces,
edges and corners — on the standard uniform-mesh configuration: an
nx×ny×nz root grid of same-level blocks with periodic boundaries on every
axis, so that every scanned direction finds a same-level leaf one periodic
step away. -/

instance : Inhabited ScanDir := ⟨⟨DirKind.corner, 0, 0, 0⟩⟩

/-- A uniform periodic 3-D grid of nx×ny×nz same-level blocks in row-major
enumeration order (gid = (k·ny + j)·nx + i), with the mesh's multilevel
flag and the replicated rank tables. -/
structure Torus3D where
  nx : Nat
  ny : Nat
  nz : Nat
  level : Nat
  multilevel : Bool
  ranklist : List Nat
  nslist : List Nat

/-- The scan configuration of a 3-D block (nx2 > 1, nx3 > 1, face_only
false — magnetic fields, viscosity or multilevel force face_only off,
mesh.cpp:412-414). -/
def cfg3D (ml : Bool) : ScanCfg := ⟨true, true, ml, false⟩

/-- One periodic step along an axis of n blocks. -/
def wrapStep (n i : Nat) (d : Int) : Nat :=
  if d < 0 then (if i = 0 then n - 1 else i - 1)
  else if 0 < d then (if i = n - 1 then 0 else i + 1)
  else i

/-- The gid of the block at grid position (i, j, k). -/
def gid3D (G : Torus3D) (i j k : Nat) : Nat := (k * G.ny + j) * G.nx + i

/-- Modelled from the spec: on a uniform fully periodic grid, FindNeighbor
(tree code not part of src/) finds for every direction the same-level leaf
one periodic step away. -/
def torusFind (G : Torus3D) (i j k : Nat) (d : ScanDir) : FindResult :=
  FindResult.leaf ⟨gid3D G (wrapStep G.nx i d.ox1) (wrapStep G.ny j d.ox2)
      (wrapStep G.nz k d.ox3), G.level⟩

/-- The block context of the block at (i, j, k): its level and coordinate
parities (on the root grid lx1 = i, lx2 = j, lx3 = k). -/
def ctx3D (G : Torus3D) (i j k : Nat) : BlockCtx := ⟨G.level, i % 2, j % 2, k % 2⟩

/-- The neighbor list of the block at (i, j, k) of a uniform periodic grid. -/
def torusNeighbors (G : Torus3D) (i j k : Nat) : List NeighborBlock :=
  searchAndSetNeighbors (cfg3D G.multilevel) (ctx3D G i j k) G.ranklist G.nslist
    (torusFind G i j k)

/-- The kk-th scanned direction of the 3-D schedule. -/
def dirAt (ml : Bool) (kk : Nat) : ScanDir := (scanDirs (cfg3D ml)).getD kk default

/-- The bufid counter value entering the kk-th scanned direction. -/
def slotSum3D (ml : Bool) (kk : Nat) : Nat :=
  (((scanDirs (cfg3D ml)).take kk).map (dirSlots (cfg3D ml))).sum

/-- The records an all-same-level scan emits for the given direction list
when the counter stands at n: one record per direction, kept by the
deduplication test (the level is never below the block's own), with
targetid FindBufferID(-ox1, -ox2, -ox3, 0, 0). -/
def sameLeafRecords (c : ScanCfg) (b : BlockCtx) (rl nsl : List Nat)
    (gidOf : ScanDir → Nat) : List ScanDir → Nat → List NeighborBlock
  | [], _ => []
  | d :: ds, n =>
    mkRecord rl nsl ⟨gidOf d, b.level⟩ d.ox1 d.ox2 d.ox3 (connOf d.kind) n
        (findBufferID c (-d.ox1) (-d.ox2) (-d.ox3) 0 0) 0 0 ::
      sameLeafRecords c b rl nsl gidOf ds (n + dirSlots c d)

/-- The scan position of the direction opposite to the kk-th one in the
26-direction schedule (faces 0-5, x1x2 edges 6-9, x1x3 edges 10-13, x2x3
edges 14-17, corners 18-25; within each block the opposite direction sits
at the mirrored position). -/
def negDirIdx (kk : Nat) : Nat :=
  [1, 0, 3, 2, 5, 4, 9, 8, 7, 6, 13, 12, 11, 10, 17, 16, 15, 14,
   25, 24, 23, 22, 21, 20, 19, 18].getD kk 0

/-- A concrete uniform periodic 2×2×2 grid on one rank. -/
def torusW : Torus3D :=
  ⟨2, 2, 2, 0, true, [0, 0, 0, 0, 0, 0, 0, 0], [0]⟩

/-- The kk-th neighbor record of the block at (i, j, k). -/
def torusRec (G : Torus3D) (i j k kk : Nat) : NeighborBlock :=
  mkRecord G.ranklist G.nslist
    ⟨gid3D G (wrapStep G.nx i (dirAt G.multilevel kk).ox1)
        (wrapStep G.ny j (dirAt G.multilevel kk).ox2)
        (wrapStep G.nz k (dirAt G.multilevel kk).ox3), G.level⟩
    (dirAt G.multilevel kk).ox1 (dirAt G.multilevel kk).ox2
    (dirAt G.multilevel kk).ox3 (connOf (dirAt G.multilevel kk).kind)
    (slotSum3D G.multilevel kk)
    (findBufferID (cfg3D G.multilevel) (-(dirAt G.multilevel kk).ox1)
      (-(dirAt G.multilevel kk).ox2) (-(dirAt G.multilevel kk).ox3) 0 0) 0 0

/-! ## Theorems -/

/-- With cost list [100, 1, 1] and 3 ranks, LoadBalancing returns normally
(no fatal error) yet assigns every block to rank 2, leaving ranks 0 and 1
with zero blocks. -/
theorem loadBalancing_returns_with_empty_rank :
    loadBalancingRanks 3 [100, 1, 1] = Except.ok [2, 2, 2] ∧
      0 ∉ [2, 2, 2] ∧ 1 ∉ [2, 2, 2] := by
  refine ⟨?_, by decide, by decide⟩
  norm_num [loadBalancingRanks, lbAssignRev, Except.map]

theorem foldl_min_mem {α : Type} [LinearOrder α] (d0 : α) (rest : List α) :
    rest.foldl min d0 ∈ d0 :: rest := by
  induction rest generalizing d0 with
  | nil => simp
  | cons r rs ih =>
    have h := ih (min d0 r)
    rcases min_choice d0 r with hc | hc <;>
      rcases List.mem_cons.mp h with h1 | h1 <;>
      simp [List.foldl_cons, h1, hc] at h ⊢ <;> simp_all

theorem foldl_min_le {α : Type} [LinearOrder α] (d0 : α) (rest : List α) :
    ∀ x ∈ d0 :: rest, rest.foldl min d0 ≤ x := by
  induction rest generalizing d0 with
  | nil => intro x hx; rw [List.mem_singleton] at hx; simp [hx]
  | cons r rs ih =>
    intro x hx
    rcases List.mem_cons.mp hx with h1 | h1
    · calc (r :: rs).foldl min d0 = rs.foldl min (min d0 r) := by simp
        _ ≤ min d0 r := ih (min d0 r) (min d0 r) (List.mem_cons_self _ _)
        _ ≤ x := by rw [h1]; exact min_le_left _ _
    · rcases List.mem_cons.mp h1 with h2 | h2
      · calc (r :: rs).foldl min d0 = rs.foldl min (min d0 r) := by simp
          _ ≤ min d0 r := ih (min d0 r) (min d0 r) (List.mem_cons_self _ _)
          _ ≤ x := by rw [h2]; exact min_le_right _ _
      · exact ih (min d0 r) x (List.mem_cons.mpr (Or.inr h2))

/-- NewTimeStep sets dt to min(cfl·m, 2·dt_prev) where m is the minimum of
new_block_dt over all blocks, and clamps to tlim-time exactly when
time < tlim and tlim-time is smaller than that value. -/
theorem newTimeStep_min_growth_clamp (cfl tlim time dtOld d0 : ℚ) (rest : List ℚ) :
    ∃ m, m ∈ d0 :: rest ∧ (∀ x ∈ d0 :: rest, m ≤ x) ∧
      newTimeStep cfl tlim time dtOld d0 rest =
        (if time < tlim ∧ tlim - time < min (cfl * m) (2 * dtOld)
         then tlim - time else min (cfl * m) (2 * dtOld)) := by
  refine ⟨rest.foldl min d0, foldl_min_mem d0 rest, foldl_min_le d0 rest, ?_⟩
  rw [mul_comm cfl (rest.foldl min d0)]
  rfl

/-- With two blocks at level 1 and costlist [5, 1], MeshTest reports
min = max = costlist[1] = 1 and total = 2, whereas the min, max and sum of
the cost list over the block index are 1, 5 and 6. -/
theorem meshTest_costs_indexed_by_level :
    meshTestCosts 1 1 [⟨0, 0, 0, 1⟩, ⟨1, 0, 0, 1⟩] [5, 1] (10 ^ 30) = (1, 1, 2) ∧
      [(5 : ℚ), 1].foldl min (10 ^ 30) = 1 ∧
      [(5 : ℚ), 1].foldl max 0 = 5 ∧
      [(5 : ℚ), 1].sum = 6 := by
  norm_num [meshTestCosts, List.range']

/-- With ctnd = 2 candidates at levels 1 and 2 (shallow first), the sort
leaves the list unchanged, so the applied order is not deepest-first. -/
theorem deref_sort_misses_last_entry :
    sortDerefCandidates [⟨0, 0, 0, 1⟩, ⟨0, 0, 0, 2⟩] = [⟨0, 0, 0, 1⟩, ⟨0, 0, 0, 2⟩] ∧
      ((sortDerefCandidates [⟨0, 0, 0, 1⟩, ⟨0, 0, 0, 2⟩]).getD 0 default).level <
        ((sortDerefCandidates [⟨0, 0, 0, 1⟩, ⟨0, 0, 0, 2⟩]).getD 1 default).level := by
  decide

/-- In 1-D (nlbl = 2), when exactly the complete sibling family (2, level 2)
and (3, level 2) is flagged -1 mesh-wide (tnderef = 2 = nlbl), no
derefinement candidate is produced; flagging one additional unrelated block
(tnderef = 3 > nlbl) makes the very same family produce its parent. -/
theorem deref_skips_lone_complete_family :
    derefinementCandidates 1 1 [⟨2, 0, 0, 2⟩, ⟨3, 0, 0, 2⟩] = [] ∧
      derefinementCandidates 1 1 [⟨2, 0, 0, 2⟩, ⟨3, 0, 0, 2⟩, ⟨5, 0, 0, 2⟩] =
        [⟨1, 0, 0, 1⟩] := by
  decide

/-- In 2-D (nlbl = 4), a gathered list of five flagged locations whose last
entry has all-even coordinates makes the sibling scan read positions 5, 6
and 7 — past the end of the five-entry list. -/
theorem deref_scan_reads_past_end :
    (derefScanReadIndices 2 1
        [⟨1, 0, 0, 2⟩, ⟨3, 0, 0, 2⟩, ⟨1, 2, 0, 2⟩, ⟨3, 2, 0, 2⟩, ⟨4, 2, 0, 2⟩]).filter
        (fun r => decide (5 ≤ r)) = [5, 6, 7] ∧
      ([⟨1, 0, 0, 2⟩, ⟨3, 0, 0, 2⟩, ⟨1, 2, 0, 2⟩, ⟨3, 2, 0, 2⟩,
          ⟨4, 2, 0, 2⟩] : List LogicalLocation).length = 5 := by
  decide

/-- On a 1-D block of 4 cells (f2 = f3 = 0) the same-level sender packs two
reals more than the bssame reals that were allocated and that are sent, for
every number nh of hydro variables; with nh = 5 the counts are 35 vs 33. -/
theorem amr_same_pack_exceeds_bssame :
    (∀ nh : Nat, packSameCount nh 2 4 1 1 = bssame nh 4 1 1 0 0 + 2) ∧
      packSameCount 5 2 4 1 1 = 35 ∧ bssame 5 4 1 1 0 0 = 33 := by
  refine ⟨fun nh => ?_, by decide, by decide⟩
  simp [packSameCount, packCount3D, bssame]
  ring

theorem foldl_add_eq_sum (g : Nat → ℚ) (k : Nat) :
    (List.range k).foldl (fun a l => a + g l) 0 = ∑ l ∈ Finset.range k, g l := by
  induction k with
  | zero => simp
  | succ k ih =>
    rw [List.range_succ, List.foldl_append, ih, Finset.sum_range_succ]
    simp

/-- Each new block's cost is the old block's cost when the level is unchanged
or refined, and the arithmetic mean of the nlbl replaced children's costs
when coarsened. -/
theorem newcost_inherit_or_average (nlbl : Nat) (loclist newloc : List LogicalLocation)
    (costlist : List ℚ) (newtoold : List Nat) (ntot n : Nat) (hn : n < ntot) :
    (newCostList nlbl loclist newloc costlist newtoold ntot).getD n 0 =
      if (loclist.getD (newtoold.getD n 0) default).level ≤
          (newloc.getD n default).level
      then costlist.getD (newtoold.getD n 0) 0
      else (∑ l ∈ Finset.range nlbl, costlist.getD (newtoold.getD n 0 + l) 0) /
        (nlbl : ℚ) := by
  unfold newCostList
  rw [List.getD_eq_getElem?_getD, List.getElem?_map, List.getElem?_range hn]
  simp [foldl_add_eq_sum]

/-- Witness: evaluating the cost-propagation rule on a concrete coarsening
step (two level-2 children with costs 3 and 5 replaced by one level-1
block). -/
theorem newcost_inherit_or_average_witness :
    (0 : Nat) < 1 ∧
      (newCostList 2 [⟨2, 0, 0, 2⟩, ⟨3, 0, 0, 2⟩] [⟨1, 0, 0, 1⟩] [3, 5] [0] 1).getD 0 0 =
        if (([⟨2, 0, 0, 2⟩, ⟨3, 0, 0, 2⟩] : List LogicalLocation).getD
              (([0] : List Nat).getD 0 0) default).level ≤
            (([⟨1, 0, 0, 1⟩] : List LogicalLocation).getD 0 default).level
        then ([3, 5] : List ℚ).getD (([0] : List Nat).getD 0 0) 0
        else (∑ l ∈ Finset.range 2,
            ([3, 5] : List ℚ).getD (([0] : List Nat).getD 0 0 + l) 0) / (2 : ℚ) :=
  ⟨by decide,
    newcost_inherit_or_average 2 [⟨2, 0, 0, 2⟩, ⟨3, 0, 0, 2⟩] [⟨1, 0, 0, 1⟩]
      [3, 5] [0] 1 0 (by decide)⟩

theorem emitLoop_spec {α : Type} (recFn : Nat → α → NeighborBlock) :
    ∀ (l : List α) (rs : List NeighborBlock) (n : Nat),
      emitLoop recFn l (rs, n) =
        (rs ++ (List.enumFrom n l).map (fun p => recFn p.1 p.2), n + l.length) := by
  intro l
  induction l with
  | nil => intro rs n; simp [emitLoop]
  | cons x xs ih =>
    intro rs n
    have h1 : emitLoop recFn (x :: xs) (rs, n) =
        emitLoop recFn xs (rs ++ [recFn n x], n + 1) := rfl
    rw [h1, ih]
    simp [List.enumFrom]
    omega

theorem facePairs_length (c : ScanCfg) : (facePairs c).length = nf1 c * nf2 c := by
  have h : (facePairs c).length = ((List.range (nf2 c)).map (fun _ => nf1 c)).sum := by
    simp [facePairs, Function.comp_def]
  rw [h, List.map_const', List.sum_replicate, List.length_range, smul_eq_mul,
    Nat.mul_comm]

theorem dirStep_decompose (c : ScanCfg) (b : BlockCtx) (rl nsl : List Nat)
    (d : ScanDir) (res : FindResult) (st : List NeighborBlock × Nat) :
    dirStep c b rl nsl d res st =
      (st.1 ++ (dirStep c b rl nsl d res ([], st.2)).1, st.2 + dirSlots c d) := by
  rcases st with ⟨rs, n⟩
  rcases d with ⟨kind, ox1, ox2, ox3⟩
  cases res with
  | null => simp [dirStep]
  | leaf lf => cases kind <;> simp [dirStep]
  | finer leaf =>
    cases kind <;>
      simp [dirStep, emitLoop_spec, dirSlots, facePairs_length]

theorem scanFold_decompose (c : ScanCfg) (b : BlockCtx) (rl nsl : List Nat)
    (find : ScanDir → FindResult) :
    ∀ (ds : List ScanDir) (rs : List NeighborBlock) (n : Nat),
      ds.foldl (fun st d => dirStep c b rl nsl d (find d) st) (rs, n) =
        (rs ++ (ds.foldl (fun st d => dirStep c b rl nsl d (find d) st) ([], n)).1,
         n + (ds.map (dirSlots c)).sum) := by
  intro ds
  induction ds with
  | nil => intro rs n; simp
  | cons d rest ih =>
    intro rs n
    rw [List.foldl_cons, List.foldl_cons,
      dirStep_decompose c b rl nsl d (find d) (rs, n),
      dirStep_decompose c b rl nsl d (find d) ([], n)]
    dsimp only
    simp only [List.nil_append]
    have h1 := ih ((dirStep c b rl nsl d (find d) ([], n)).1) (n + dirSlots c d)
    have h2 := ih (rs ++ (dirStep c b rl nsl d (find d) ([], n)).1) (n + dirSlots c d)
    rw [h2, h1]
    simp [List.append_assoc, Nat.add_assoc]

theorem scanFold_congr (c : ScanCfg) (b : BlockCtx) (rl nsl : List Nat)
    (f g : ScanDir → FindResult) :
    ∀ (ds : List ScanDir), (∀ d ∈ ds, f d = g d) → ∀ st,
      ds.foldl (fun st d => dirStep c b rl nsl d (f d) st) st =
        ds.foldl (fun st d => dirStep c b rl nsl d (g d) st) st := by
  intro ds
  induction ds with
  | nil => intro _ st; rfl
  | cons d rest ih =>
    intro hag st
    rw [List.foldl_cons, List.foldl_cons, hag d (List.mem_cons_self d rest),
      ih (fun x hx => hag x (List.mem_cons_of_mem d hx))]

theorem scanCounterAfter_eq_sum (c : ScanCfg) (b : BlockCtx) (rl nsl : List Nat)
    (find : ScanDir → FindResult) (k : Nat) :
    scanCounterAfter c b rl nsl find k =
      (((scanDirs c).take k).map (dirSlots c)).sum := by
  unfold scanCounterAfter
  rw [scanFold_decompose]
  simp

/-- The bufid of every record is a function of the scan position of its
direction only: the counter entering the k-th scanned direction equals the
sum of the slot counts of the first k directions, independently of what the
tree contains (conjuncts 1 and 2); when a direction has no leaf, no record
is emitted there, but the counter still advances by that direction's slot
count (conjunct 5); hence two trees that agree from position k onward
produce identical record lists from position k onward, wherever leaves were
absent before k (conjuncts 3 and 4). -/
theorem neighbor_bufid_position_determined (c : ScanCfg) (b : BlockCtx)
    (rl nsl : List Nat) (f g : ScanDir → FindResult) (k : Nat)
    (hagree : ∀ d ∈ (scanDirs c).drop k, f d = g d) :
    scanCounterAfter c b rl nsl f k =
        (((scanDirs c).take k).map (dirSlots c)).sum ∧
      scanCounterAfter c b rl nsl f k = scanCounterAfter c b rl nsl g k ∧
      scanRecordsFrom c b rl nsl f k = scanRecordsFrom c b rl nsl g k ∧
      searchAndSetNeighbors c b rl nsl f =
        (((scanDirs c).take k).foldl
            (fun st d => dirStep c b rl nsl d (f d) st) ([], 0)).1 ++
          scanRecordsFrom c b rl nsl f k ∧
      (∀ d st, f d = FindResult.null →
        (dirStep c b rl nsl d (f d) st).1 = st.1 ∧
        (dirStep c b rl nsl d (f d) st).2 = st.2 + dirSlots c d) := by
  have hcnt : scanCounterAfter c b rl nsl f k = scanCounterAfter c b rl nsl g k := by
    rw [scanCounterAfter_eq_sum, scanCounterAfter_eq_sum]
  refine ⟨scanCounterAfter_eq_sum c b rl nsl f k, hcnt, ?_, ?_, ?_⟩
  · unfold scanRecordsFrom
    rw [hcnt, scanFold_congr c b rl nsl f g ((scanDirs c).drop k) hagree]
  · unfold searchAndSetNeighbors neighborScan scanRecordsFrom
    conv_lhs => rw [← List.take_append_drop k (scanDirs c)]
    rw [List.foldl_append]
    have hpre : ((scanDirs c).take k).foldl
        (fun st d => dirStep c b rl nsl d (f d) st) ([], 0) =
        ((((scanDirs c).take k).foldl
            (fun st d => dirStep c b rl nsl d (f d) st) ([], 0)).1,
         scanCounterAfter c b rl nsl f k) := by
      unfold scanCounterAfter
      exact Prod.mk.eta.symm
    rw [hpre, scanFold_decompose]
  · intro d st hnull
    rw [hnull]
    exact ⟨rfl, rfl⟩

/-- Witness: the scan theorems instantiated on a concrete 3-D configuration,
oracle, and prefix length. -/
theorem neighbor_bufid_position_determined_witness :
    scanCounterAfter cfgW ctxW [0] [0] findW 3 =
        (((scanDirs cfgW).take 3).map (dirSlots cfgW)).sum ∧
      scanCounterAfter cfgW ctxW [0] [0] findW 3 =
        scanCounterAfter cfgW ctxW [0] [0] findW 3 ∧
      scanRecordsFrom cfgW ctxW [0] [0] findW 3 =
        scanRecordsFrom cfgW ctxW [0] [0] findW 3 ∧
      searchAndSetNeighbors cfgW ctxW [0] [0] findW =
        (((scanDirs cfgW).take 3).foldl
            (fun st d => dirStep cfgW ctxW [0] [0] d (findW d) st) ([], 0)).1 ++
          scanRecordsFrom cfgW ctxW [0] [0] findW 3 ∧
      (∀ d st, findW d = FindResult.null →
        (dirStep cfgW ctxW [0] [0] d (findW d) st).1 = st.1 ∧
        (dirStep cfgW ctxW [0] [0] d (findW d) st).2 = st.2 + dirSlots cfgW d) :=
  neighbor_bufid_position_determined cfgW ctxW [0] [0] findW findW 3
    (fun _ _ => rfl)

theorem nf1_cfg1D (M : Mesh1D) : nf1 (cfg1D M) = 1 := by
  simp [nf1, cfg1D]

theorem nf2_cfg1D (M : Mesh1D) : nf2 (cfg1D M) = 1 := by
  simp [nf2, cfg1D]

theorem scanDirs_cfg1D (M : Mesh1D) :
    scanDirs (cfg1D M) =
      [⟨DirKind.faceX1, -1, 0, 0⟩, ⟨DirKind.faceX1, 1, 0, 0⟩] := by
  simp [scanDirs, cfg1D]

theorem facePairs_cfg1D (M : Mesh1D) : facePairs (cfg1D M) = [(0, 0)] := by
  simp [facePairs, nf1_cfg1D, nf2_cfg1D, List.range_succ]

theorem findBufferID_cfg1D_minus (M : Mesh1D) :
    findBufferID (cfg1D M) (-1) 0 0 0 0 = 0 := by
  simp [findBufferID, findBufferIDAux, scanDirs_cfg1D, dirFineOffset]

theorem findBufferID_cfg1D_plus (M : Mesh1D) :
    findBufferID (cfg1D M) 1 0 0 0 0 = 1 := by
  norm_num [findBufferID, findBufferIDAux, scanDirs_cfg1D, dirFineOffset,
    dirSlots, nf1_cfg1D, nf2_cfg1D]

theorem dirStep1D (M : Mesh1D) (a : Nat) (n : Int) (hn : n = -1 ∨ n = 1)
    (ha2 : (M.leaves.getD a default).lx2 = 0)
    (ha3 : (M.leaves.getD a default).lx3 = 0)
    (st : List NeighborBlock × Nat) :
    dirStep (cfg1D M) (ctx1D M a) M.ranklist M.nslist ⟨DirKind.faceX1, n, 0, 0⟩
        (oracle1D M a ⟨DirKind.faceX1, n, 0, 0⟩) st =
      (st.1 ++ (match findNeighbor1D M a n with
        | none => []
        | some bidx => [rec1DAt M bidx n st.2]), st.2 + 1) := by
  rcases st with ⟨rs, k⟩
  have h2 : (ctx1D M a).fx2 = 0 := by
    show (M.leaves.getD a default).lx2 % 2 = 0
    rw [ha2]
  have h3 : (ctx1D M a).fx3 = 0 := by
    show (M.leaves.getD a default).lx3 % 2 = 0
    rw [ha3]
  have hbid : findBufferID (cfg1D M) (-n) 0 0 0 0 = (if n = -1 then 1 else 0) := by
    rcases hn with hn | hn <;> subst hn <;>
      simp [findBufferID_cfg1D_minus, findBufferID_cfg1D_plus]
  dsimp only [oracle1D]
  cases hfn : findNeighbor1D M a n with
  | none =>
    simp [dirStep, dirSlots, nf1_cfg1D, nf2_cfg1D]
  | some bidx =>
    dsimp only
    by_cases hl :
        (M.leaves.getD a default).level < (M.leaves.getD bidx default).level
    · rw [if_pos hl]
      simp [dirStep, emitLoop, facePairs_cfg1D, faceFinerRec, rec1DAt, hbid]
    · rw [if_neg hl]
      simp [dirStep, leafRecords, dedupKeep, coarseFi, connOf, h2, h3, rec1DAt,
        hbid, dirSlots, nf1_cfg1D, nf2_cfg1D]

theorem neighbors1D_eq (M : Mesh1D) (a : Nat)
    (ha2 : (M.leaves.getD a default).lx2 = 0)
    (ha3 : (M.leaves.getD a default).lx3 = 0) :
    neighbors1D M a =
      (match findNeighbor1D M a (-1) with
       | none => []
       | some bidx => [rec1DAt M bidx (-1) 0]) ++
      (match findNeighbor1D M a 1 with
       | none => []
       | some bidx => [rec1DAt M bidx 1 1]) := by
  unfold neighbors1D searchAndSetNeighbors neighborScan
  rw [scanDirs_cfg1D, List.foldl_cons, List.foldl_cons, List.foldl_nil,
    dirStep1D M a (-1) (Or.inl rfl) ha2 ha3 ([], 0),
    dirStep1D M a 1 (Or.inr rfl) ha2 ha3 _]
  cases findNeighbor1D M a (-1) <;> cases findNeighbor1D M a 1 <;> simp

theorem findNeighbor1D_dual_prev (M : Mesh1D) (a b : Nat)
    (ha : a < M.leaves.length)
    (h : findNeighbor1D M a (-1) = some b) :
    findNeighbor1D M b 1 = some a ∧ b < M.leaves.length := by
  unfold findNeighbor1D at h ⊢
  rw [if_pos (by norm_num : (-1 : Int) < 0)] at h
  rw [if_neg (by norm_num : ¬ ((1 : Int) < 0))]
  by_cases h0 : a = 0
  · rw [if_pos h0] at h
    by_cases hp : M.periodic
    · simp [hp] at h
      subst h0
      rw [if_pos h.symm]
      simp [hp]
      omega
    · simp [hp] at h
  · rw [if_neg h0] at h
    simp at h
    have hne : ¬ (b = M.leaves.length - 1) := by omega
    rw [if_neg hne]
    constructor
    · congr 1
      omega
    · omega

theorem findNeighbor1D_dual_next (M : Mesh1D) (a b : Nat)
    (ha : a < M.leaves.length)
    (h : findNeighbor1D M a 1 = some b) :
    findNeighbor1D M b (-1) = some a ∧ b < M.leaves.length := by
  unfold findNeighbor1D at h ⊢
  rw [if_neg (by norm_num : ¬ ((1 : Int) < 0))] at h
  rw [if_pos (by norm_num : (-1 : Int) < 0)]
  by_cases h0 : a = M.leaves.length - 1
  · rw [if_pos h0] at h
    by_cases hp : M.periodic
    · simp [hp] at h
      subst h0
      rw [if_pos h.symm]
      simp [hp]
      omega
    · simp [hp] at h
  · rw [if_neg h0] at h
    simp at h
    have hne : ¬ (b = 0) := by omega
    rw [if_neg hne]
    constructor
    · congr 1
      omega
    · omega

theorem getD_mem_of_lt {l : List LogicalLocation} {i : Nat} (h : i < l.length) :
    l.getD i default ∈ l := by
  rw [List.getD_eq_getElem l default h]
  exact List.getElem_mem h

/-- On a well-formed 1-D mesh, the neighbor records produced by
SearchAndSetNeighbors are symmetric: if block a holds a record for block b
with offsets (ox1, 0, 0), then block b holds a record for block a with the
negated offsets, and the bufid stored in each record equals the targetid
stored in the other. -/
theorem neighbor_symmetry_1d (M : Mesh1D) (hwf : M.WF) (a b : Nat)
    (ha : a < M.leaves.length) (r : NeighborBlock)
    (hr : r ∈ neighbors1D M a) (hgid : r.gid = b) :
    b < M.leaves.length ∧
      ∃ s ∈ neighbors1D M b, s.gid = a ∧ s.ox1 = -r.ox1 ∧ s.ox2 = -r.ox2 ∧
        s.ox3 = -r.ox3 ∧ s.targetid = r.bufid ∧ s.bufid = r.targetid := by
  obtain ⟨hne, h1d, h21, hper⟩ := hwf
  obtain ⟨ha2, ha3⟩ := h1d _ (getD_mem_of_lt ha)
  rw [neighbors1D_eq M a ha2 ha3] at hr
  rcases List.mem_append.mp hr with hrl | hrr
  · cases hm : findNeighbor1D M a (-1) with
    | none => rw [hm] at hrl; simp at hrl
    | some bidx =>
      rw [hm] at hrl
      simp at hrl
      subst hrl
      have hgb : bidx = b := hgid
      subst hgb
      obtain ⟨hdual, hblt⟩ := findNeighbor1D_dual_prev M a bidx ha hm
      obtain ⟨hb2, hb3⟩ := h1d _ (getD_mem_of_lt hblt)
      refine ⟨hblt, rec1DAt M a 1 1, ?_, rfl, ?_, ?_, ?_, ?_, ?_⟩
      · rw [neighbors1D_eq M bidx hb2 hb3, hdual]
        simp
      · norm_num [rec1DAt, mkRecord]
      · norm_num [rec1DAt, mkRecord]
      · norm_num [rec1DAt, mkRecord]
      · norm_num [rec1DAt, mkRecord]
      · norm_num [rec1DAt, mkRecord]
  · cases hm : findNeighbor1D M a 1 with
    | none => rw [hm] at hrr; simp at hrr
    | some bidx =>
      rw [hm] at hrr
      simp at hrr
      subst hrr
      have hgb : bidx = b := hgid
      subst hgb
      obtain ⟨hdual, hblt⟩ := findNeighbor1D_dual_next M a bidx ha hm
      obtain ⟨hb2, hb3⟩ := h1d _ (getD_mem_of_lt hblt)
      refine ⟨hblt, rec1DAt M a (-1) 0, ?_, rfl, ?_, ?_, ?_, ?_, ?_⟩
      · rw [neighbors1D_eq M bidx hb2 hb3, hdual]
        simp
      · norm_num [rec1DAt, mkRecord]
      · norm_num [rec1DAt, mkRecord]
      · norm_num [rec1DAt, mkRecord]
      · norm_num [rec1DAt, mkRecord]
      · norm_num [rec1DAt, mkRecord]

theorem dedupKeep_self (c : ScanCfg) (b : BlockCtx) (d : ScanDir) :
    dedupKeep c b d b.level = true := by
  rcases d with ⟨kind, ox1, ox2, ox3⟩
  cases kind <;> simp [dedupKeep]

theorem scanAllSameLeaf (c : ScanCfg) (b : BlockCtx) (rl nsl : List Nat)
    (find : ScanDir → FindResult) (gidOf : ScanDir → Nat)
    (hfind : ∀ d, find d = FindResult.leaf ⟨gidOf d, b.level⟩) :
    ∀ (ds : List ScanDir) (rs : List NeighborBlock) (n : Nat),
      (ds.foldl (fun st d => dirStep c b rl nsl d (find d) st) (rs, n)).1 =
        rs ++ sameLeafRecords c b rl nsl gidOf ds n := by
  intro ds
  induction ds with
  | nil => intro rs n; simp [sameLeafRecords]
  | cons d rest ih =>
    intro rs n
    rw [List.foldl_cons, hfind d]
    have hstep : dirStep c b rl nsl d (FindResult.leaf ⟨gidOf d, b.level⟩) (rs, n) =
        (rs ++ [mkRecord rl nsl ⟨gidOf d, b.level⟩ d.ox1 d.ox2 d.ox3 (connOf d.kind) n
          (findBufferID c (-d.ox1) (-d.ox2) (-d.ox3) 0 0) 0 0], n + dirSlots c d) := by
      simp [dirStep, leafRecords, dedupKeep_self]
    rw [hstep, ih]
    simp [sameLeafRecords, List.append_assoc]

theorem sameLeafRecords_mem (c : ScanCfg) (b : BlockCtx) (rl nsl : List Nat)
    (gidOf : ScanDir → Nat) :
    ∀ (ds : List ScanDir) (n : Nat) (r : NeighborBlock),
      (r ∈ sameLeafRecords c b rl nsl gidOf ds n ↔
        ∃ kk, kk < ds.length ∧
          r = mkRecord rl nsl ⟨gidOf (ds.getD kk default), b.level⟩
                (ds.getD kk default).ox1 (ds.getD kk default).ox2
                (ds.getD kk default).ox3 (connOf (ds.getD kk default).kind)
                (n + ((ds.take kk).map (dirSlots c)).sum)
                (findBufferID c (-(ds.getD kk default).ox1)
                  (-(ds.getD kk default).ox2) (-(ds.getD kk default).ox3) 0 0)
                0 0) := by
  intro ds
  induction ds with
  | nil => intro n r; simp [sameLeafRecords]
  | cons d rest ih =>
    intro n r
    constructor
    · intro h
      rcases List.mem_cons.mp h with h0 | h1
      · exact ⟨0, by simp, by simpa using h0⟩
      · obtain ⟨kk, hkk, heq⟩ := (ih (n + dirSlots c d) r).mp h1
        refine ⟨kk + 1, by simpa using hkk, ?_⟩
        simpa [Nat.add_assoc] using heq
    · rintro ⟨kk, hkk, heq⟩
      cases kk with
      | zero =>
        exact List.mem_cons.mpr (Or.inl (by simpa using heq))
      | succ kk =>
        refine List.mem_cons.mpr (Or.inr ?_)
        refine (ih (n + dirSlots c d) r).mpr ⟨kk, by simpa using hkk, ?_⟩
        simpa [Nat.add_assoc] using heq

theorem torusNeighbors_mem (G : Torus3D) (i j k : Nat) (r : NeighborBlock) :
    r ∈ torusNeighbors G i j k ↔ ∃ kk, kk < 26 ∧ r = torusRec G i j k kk := by
  have hchar : torusNeighbors G i j k =
      sameLeafRecords (cfg3D G.multilevel) (ctx3D G i j k) G.ranklist G.nslist
        (fun d => gid3D G (wrapStep G.nx i d.ox1) (wrapStep G.ny j d.ox2)
          (wrapStep G.nz k d.ox3)) (scanDirs (cfg3D G.multilevel)) 0 := by
    unfold torusNeighbors searchAndSetNeighbors neighborScan
    rw [scanAllSameLeaf (cfg3D G.multilevel) (ctx3D G i j k) G.ranklist G.nslist
      (torusFind G i j k)
      (fun d => gid3D G (wrapStep G.nx i d.ox1) (wrapStep G.ny j d.ox2)
        (wrapStep G.nz k d.ox3)) (fun d => rfl)]
    simp
  rw [hchar, sameLeafRecords_mem]
  simp only [show (scanDirs (cfg3D G.multilevel)).length = 26 from rfl]
  simp [torusRec, dirAt, slotSum3D, ctx3D]

theorem wrapStep_dual (n i : Nat) (d : Int) (hn : 0 < n) (hi : i < n) :
    wrapStep n (wrapStep n i d) (-d) = i := by
  unfold wrapStep
  rcases lt_trichotomy d 0 with hd | hd | hd
  · rw [if_pos hd, if_neg (by omega : ¬ (-d < 0)), if_pos (by omega : 0 < -d)]
    by_cases h0 : i = 0
    · rw [if_pos h0, if_pos rfl]
      omega
    · rw [if_neg h0, if_neg (by omega : ¬ (i - 1 = n - 1))]
      omega
  · subst hd
    norm_num
  · rw [if_neg (by omega : ¬ (d < 0)), if_pos hd,
      if_pos (by omega : -d < 0)]
    by_cases h0 : i = n - 1
    · rw [if_pos h0, if_pos rfl]
      omega
    · rw [if_neg h0, if_neg (by omega : ¬ (i + 1 = 0))]
      omega

theorem catalog3D (ml : Bool) : ∀ kk < 26,
    negDirIdx kk < 26 ∧
    (dirAt ml (negDirIdx kk)).ox1 = -(dirAt ml kk).ox1 ∧
    (dirAt ml (negDirIdx kk)).ox2 = -(dirAt ml kk).ox2 ∧
    (dirAt ml (negDirIdx kk)).ox3 = -(dirAt ml kk).ox3 ∧
    slotSum3D ml (negDirIdx kk) =
      findBufferID (cfg3D ml) (-(dirAt ml kk).ox1) (-(dirAt ml kk).ox2)
        (-(dirAt ml kk).ox3) 0 0 ∧
    slotSum3D ml kk =
      findBufferID (cfg3D ml) (dirAt ml kk).ox1 (dirAt ml kk).ox2
        (dirAt ml kk).ox3 0 0 := by
  cases ml <;> decide

/-- On a uniform periodic 3-D grid every record of the block at (i, j, k)
refers to the block one periodic step away in its direction, and that block
holds the reciprocal record with negated offsets, the bufid of each equal
to the targetid of the other — across all 26 directions (faces, edges,
corners). -/
theorem torus_symmetry (G : Torus3D) (i j k : Nat)
    (hi : i < G.nx) (hj : j < G.ny) (hk : k < G.nz)
    (r : NeighborBlock) (hr : r ∈ torusNeighbors G i j k) :
    r.gid = gid3D G (wrapStep G.nx i r.ox1) (wrapStep G.ny j r.ox2)
        (wrapStep G.nz k r.ox3) ∧
      ∃ s ∈ torusNeighbors G (wrapStep G.nx i r.ox1) (wrapStep G.ny j r.ox2)
          (wrapStep G.nz k r.ox3),
        s.gid = gid3D G i j k ∧ s.ox1 = -r.ox1 ∧ s.ox2 = -r.ox2 ∧
          s.ox3 = -r.ox3 ∧ s.targetid = r.bufid ∧ s.bufid = r.targetid := by
  obtain ⟨kk, hkk, hrEq⟩ := (torusNeighbors_mem G i j k r).mp hr
  obtain ⟨hneg, hox1, hox2, hox3, hfb1, hfb2⟩ := catalog3D G.multilevel kk hkk
  subst hrEq
  refine ⟨rfl,
    torusRec G (wrapStep G.nx i (dirAt G.multilevel kk).ox1)
      (wrapStep G.ny j (dirAt G.multilevel kk).ox2)
      (wrapStep G.nz k (dirAt G.multilevel kk).ox3) (negDirIdx kk),
    (torusNeighbors_mem G _ _ _ _).mpr ⟨negDirIdx kk, hneg, rfl⟩,
    ?_, hox1, hox2, hox3, ?_, ?_⟩
  · show gid3D G
        (wrapStep G.nx (wrapStep G.nx i (dirAt G.multilevel kk).ox1)
          (dirAt G.multilevel (negDirIdx kk)).ox1)
        (wrapStep G.ny (wrapStep G.ny j (dirAt G.multilevel kk).ox2)
          (dirAt G.multilevel (negDirIdx kk)).ox2)
        (wrapStep G.nz (wrapStep G.nz k (dirAt G.multilevel kk).ox3)
          (dirAt G.multilevel (negDirIdx kk)).ox3) = gid3D G i j k
    rw [hox1, hox2, hox3, wrapStep_dual G.nx i _ (by omega) hi,
      wrapStep_dual G.ny j _ (by omega) hj, wrapStep_dual G.nz k _ (by omega) hk]
  · show findBufferID (cfg3D G.multilevel)
        (-(dirAt G.multilevel (negDirIdx kk)).ox1)
        (-(dirAt G.multilevel (negDirIdx kk)).ox2)
        (-(dirAt G.multilevel (negDirIdx kk)).ox3) 0 0 = slotSum3D G.multilevel kk
    rw [hox1, hox2, hox3, neg_neg, neg_neg, neg_neg]
    exact hfb2.symm
  · exact hfb1

end Athena
